import Mathlib

/-!
Verification development for the codebase-reviewer repository.

The Python sources under `src/codebase-reviewer/src/codebase_reviewer/` (and the
sibling tree `src/review-codebase/src/codebase_reviewer/`) are shallowly embedded
below.  Pure functions are translated into Lean functions over `List Char` /
`String`; the filesystem-facing parts are embedded as functions over explicit
listings (a matched file carries its read outcome as data).  Python floats that
only ever hold exact small rationals (percentages, the 0.5 and 0.8 literals) are
modelled with `Rat`.  Python `str.lower`, `\s`, and `\w` are modelled on their
ASCII fragment, which covers every string the analyzers construct themselves.
-/

namespace CodebaseReviewer

/-! ### String primitives (Python `str` operations used by the analyzers) -/

/-- ASCII fragment of Python's `\s` class: space, tab, newline, carriage
return, vertical tab, form feed. -/
def isPySpace (c : Char) : Bool :=
  c = ' ' || c = '\t' || c = '\n' || c = '\r' || c = '\x0b' || c = '\x0c'

/-- ASCII fragment of Python's `\w` class: letters, digits, underscore. -/
def isWordChar (c : Char) : Bool :=
  ('a' ≤ c && c ≤ 'z') || ('A' ≤ c && c ≤ 'Z') || ('0' ≤ c && c ≤ '9') || c = '_'

/-- ASCII `str.lower` on a single character. -/
def lowerChar (c : Char) : Char :=
  if 'A' ≤ c ∧ c ≤ 'Z' then Char.ofNat (c.toNat + 32) else c

/-- ASCII `str.lower` on a character list. -/
def lowerList (s : List Char) : List Char := s.map lowerChar

/-- ASCII `str.lower` on a string. -/
def lowerStr (s : String) : String := String.mk (lowerList s.toList)

/-- Python's substring test `needle in hay` on character lists. -/
def containsSub : (hay needle : List Char) → Bool
  | hay@(_ :: t), needle => needle.isPrefixOf hay || containsSub t needle
  | [], needle => needle.isEmpty

/-- Python's substring test `needle in hay` on strings. -/
def strContains (hay needle : String) : Bool := containsSub hay.toList needle.toList

/-- Python `content.split("\n")`: the (possibly empty) chunks between newline
characters; the empty string splits to one empty chunk. -/
def splitNl : List Char → List (List Char)
  | [] => [[]]
  | c :: cs =>
    if c = '\n' then [] :: splitNl cs
    else
      match splitNl cs with
      | h :: t => (c :: h) :: t
      | [] => [[c]]

/-- Python `"\n".join(lines)`. -/
def joinNl : List (List Char) → List Char
  | [] => []
  | [l] => l
  | l :: ls => l ++ '\n' :: joinNl ls

/-- Python `s.strip()` (whitespace from both ends). -/
def stripWs (s : List Char) : List Char :=
  ((s.dropWhile isPySpace).reverse.dropWhile isPySpace).reverse

/-- `pathlib.Path(name).suffix`: the part of `name` from its last dot on,
provided that dot is neither the first nor the last character. -/
def pySuffix (name : List Char) : List Char :=
  let k := (name.reverse.takeWhile (fun c => c ≠ '.')).length
  if k = name.length then []
  else
    let i := name.length - 1 - k
    if 0 < i ∧ 0 < k then name.drop i else []

/-! ### Data model (`models.py`) -/

/-- `ClaimType` enum from `models.py`. -/
inductive ClaimType
  | architecture
  | setup
  | api
  | feature
  | dependency
  | deployment
deriving DecidableEq, BEq, Repr

/-- `ValidationStatus` enum from `models.py`.  The Python member `PARTIAL` is
named `partly` here. -/
inductive ValidationStatus
  | valid
  | invalid
  | partly
  | untestable
deriving DecidableEq, BEq, Repr

/-- `Severity` enum from `models.py`. -/
inductive Severity
  | critical
  | high
  | medium
  | low
  | info
deriving DecidableEq, BEq, Repr

/-- `DocumentFile` dataclass; `last_modified` is an abstract timestamp. -/
structure DocumentFile where
  path : String
  doc_type : String
  content : String
  priority : Nat
  last_modified : Nat
  size_bytes : Nat
deriving DecidableEq, Repr

/-- `Claim` dataclass from `models.py`. -/
structure Claim where
  source_doc : String
  claim_type : ClaimType
  description : String
  testable : Bool
  validated : Option ValidationStatus
  validation_notes : Option String
  severity : Severity
deriving DecidableEq, Repr

/-- `ArchitectureClaims` dataclass (`data_flow` is always `None` in the source). -/
structure ArchitectureClaims where
  pattern : Option String
  layers : List String
  components : List String
  data_flow : Option String
  documented_in : List String
deriving DecidableEq, Repr

/-- `SetupGuide` dataclass. -/
structure SetupGuide where
  prerequisites : List String
  build_steps : List String
  environment_vars : List String
  deployment_steps : List String
  documented_in : List String
deriving DecidableEq, Repr

/-- `APISpec` dataclass; an endpoint is a (method, path) pair. -/
structure APISpec where
  endpoints : List (String × String)
  api_type : Option String
  documented_in : List String
deriving DecidableEq, Repr

/-- `CodingStandards` dataclass. -/
structure CodingStandards where
  style_guide : Option String
  linting_tools : List String
  naming_conventions : List String
  documented_in : List String
deriving DecidableEq, Repr

/-- `Issue` dataclass. -/
structure Issue where
  title : String
  description : String
  severity : Severity
  source : String
deriving DecidableEq, Repr

/-- `DocumentationAnalysis` dataclass. -/
structure DocumentationAnalysis where
  discovered_docs : List DocumentFile
  claimed_architecture : Option ArchitectureClaims
  setup_instructions : Option SetupGuide
  api_documentation : Option APISpec
  coding_standards : Option CodingStandards
  known_issues : List Issue
  claims : List Claim
  completeness_score : Rat
deriving DecidableEq, Repr

/-- `Language` dataclass; `percentage` is modelled exactly with `Rat`. -/
structure Language where
  name : String
  percentage : Rat
  file_count : Nat
  line_count : Nat
deriving DecidableEq, Repr

/-- `Framework` dataclass; `confidence` is modelled with `Rat`. -/
structure Framework where
  name : String
  version : Option String
  confidence : Rat
deriving DecidableEq, Repr

/-- `EntryPoint` dataclass. -/
structure EntryPoint where
  path : String
  entry_type : String
  description : String
deriving DecidableEq, Repr

/-- `DirectoryTree` dataclass (its `structure` dict is always empty in the
source and is omitted). -/
structure DirectoryTree where
  root : String
  total_files : Nat
  total_dirs : Nat
deriving DecidableEq, Repr

/-- `CodeStructure` dataclass.  The Python field `structure` of `CodeAnalysis`
points to this record. -/
structure CodeStructure where
  languages : List Language
  frameworks : List Framework
  entry_points : List EntryPoint
  directory_tree : Option DirectoryTree
deriving DecidableEq, Repr

/-- `DependencyInfo` dataclass. -/
structure DependencyInfo where
  name : String
  dependency_type : String
  version : Option String
  source_file : String
deriving DecidableEq, Repr

/-- `CodeAnalysis` dataclass; the Python field `structure` is named
`structure_` because `structure` is a Lean keyword (`complexity_metrics` is
always the empty dict in the source and is omitted). -/
structure CodeAnalysis where
  structure_ : Option CodeStructure
  dependencies : List DependencyInfo
  quality_issues : List Issue
deriving DecidableEq, Repr

/-- Payload of the evidence f-strings built by `validation.py`; each
constructor carries the data interpolated into the corresponding f-string. -/
inductive Evidence
  | detectedFrameworks (names : List String)
  | componentsFound (found total : Nat)
  | prereqMismatch (missing : List String)
  | apiTypeMismatch (apiType : String)
deriving DecidableEq, Repr

/-- `ValidationResult` dataclass.  `claim` is an `Option` because
`_validate_architecture_claims` passes `None` (with a `type: ignore`) when the
claims list is empty. -/
structure ValidationResult where
  claim : Option Claim
  validation_status : ValidationStatus
  severity : Severity
  evidence : Evidence
  recommendation : String
deriving DecidableEq, Repr

/-- Payload of the undocumented-feature f-strings built by
`_find_undocumented_features`. -/
inductive UndocFeature
  | framework (name : String)
  | primaryLanguage (name : String)
deriving DecidableEq, Repr

/-- `DriftReport` dataclass. -/
structure DriftReport where
  architecture_drift : List ValidationResult
  setup_drift : List ValidationResult
  api_drift : List ValidationResult
  undocumented_features : List UndocFeature
  outdated_documentation : List String
  drift_severity : Severity
deriving DecidableEq, Repr

/-! ### Validation engine (`analyzers/validation.py`) -/

/-- Python truthiness of an `Optional[str]`: `None` and the empty string are
falsy. -/
def truthyStr : Option String → Option String
  | some s => if s.isEmpty then none else some s
  | none => none

/-- The `consistency_map` literal of `_check_pattern_consistency`. -/
def consistencyMap : List (String × List String) :=
  [("mvc", ["django", "rails", "spring"]),
   ("microservices", ["express", "flask", "spring boot"]),
   ("monolith", ["django", "rails"])]

/-- `ValidationEngine._check_pattern_consistency`. -/
def check_pattern_consistency (claimed_pattern : String) (frameworks : List Framework) : Bool :=
  let pattern_lower := lowerStr claimed_pattern
  match consistencyMap.lookup pattern_lower with
  | some expected_frameworks =>
    let framework_names := frameworks.map (fun f => lowerStr f.name)
    framework_names.any (fun fname => expected_frameworks.any (fun exp => strContains fname exp))
  | none => true

/-- The `pattern_claim` generator expression of `_validate_architecture_claims`:
first claim of type ARCHITECTURE whose lowered description contains the lowered
pattern. -/
def findPatternClaim (p : String) (claims : List Claim) : Option Claim :=
  claims.find? (fun c =>
    c.claim_type == ClaimType.architecture && strContains (lowerStr c.description) (lowerStr p))

/-- The pattern branch of `_validate_architecture_claims` (the `if
claimed_arch.pattern:` block). -/
def archPatternResults (docs : DocumentationAnalysis) (arch : ArchitectureClaims)
    (st : CodeStructure) : List ValidationResult :=
  match truthyStr arch.pattern with
  | none => []
  | some p =>
    match findPatternClaim p docs.claims with
    | none => []
    | some pattern_claim =>
      let pattern_valid := check_pattern_consistency p st.frameworks
      [⟨some pattern_claim,
        if pattern_valid then ValidationStatus.valid else ValidationStatus.partly,
        Severity.medium,
        Evidence.detectedFrameworks (st.frameworks.map (fun f => f.name)),
        if pattern_valid then "Architecture pattern appears consistent"
        else "Verify claimed architecture matches implementation"⟩]

/-- The components branch of `_validate_architecture_claims` (the `if
claimed_arch.components:` block).  The Python comparison against
`len(...) * 0.5` is exact for these float values and is modelled in `Rat`. -/
def archComponentResults (docs : DocumentationAnalysis) (arch : ArchitectureClaims)
    (st : CodeStructure) : List ValidationResult :=
  if arch.components.isEmpty then []
  else
    let entry_point_paths := st.entry_points.map (fun ep => ep.path)
    let components_found := arch.components.countP (fun comp =>
      entry_point_paths.any (fun path => strContains (lowerStr path) (lowerStr comp)))
    if (components_found : Rat) < (arch.components.length : Rat) * (1 / 2) then
      [⟨docs.claims.head?, ValidationStatus.partly, Severity.medium,
        Evidence.componentsFound components_found arch.components.length,
        "Review documented component list for accuracy"⟩]
    else []

/-- `ValidationEngine._validate_architecture_claims`. -/
def validate_architecture_claims (docs : DocumentationAnalysis) (code : CodeAnalysis) :
    List ValidationResult :=
  match docs.claimed_architecture, code.structure_ with
  | some arch, some st => archPatternResults docs arch st ++ archComponentResults docs arch st
  | _, _ => []

/-- Keep-first deduplication, standing in for Python's `set(...)` where the
source only uses membership, counting, and a bounded listing of elements. -/
def dedupKeepFirst (l : List String) : List String := l.eraseDups

/-- The missing-prerequisite computation of `_validate_setup_instructions`:
prerequisites longer than 3 characters, lowered and deduplicated, that no
lowered dependency name contains as a substring. -/
def missingPrereqs (setup : SetupGuide) (deps : List DependencyInfo) : List String :=
  let doc_deps := dedupKeepFirst ((setup.prerequisites.filter (fun d => 3 < d.length)).map lowerStr)
  let actual_deps := deps.map (fun d => lowerStr d.name)
  doc_deps.filter (fun doc_dep => !(actual_deps.any (fun actual => strContains actual doc_dep)))

/-- `setup_claims[0]` of `_validate_setup_instructions`. -/
def firstSetupClaim (claims : List Claim) : Option Claim :=
  (claims.filter (fun c => c.claim_type == ClaimType.setup)).head?

/-- `ValidationEngine._validate_setup_instructions`. -/
def validate_setup_instructions (docs : DocumentationAnalysis) (code : CodeAnalysis) :
    List ValidationResult :=
  match docs.setup_instructions with
  | none => []
  | some setup =>
    if code.dependencies.isEmpty then []
    else
      let missing_deps := missingPrereqs setup code.dependencies
      if !missing_deps.isEmpty && decide (2 < missing_deps.length) then
        match firstSetupClaim docs.claims with
        | some c =>
          [⟨some c, ValidationStatus.partly, Severity.low,
            Evidence.prereqMismatch (missing_deps.take 5),
            "Verify setup documentation matches actual requirements"⟩]
        | none => []
      else []

/-- `api_claims[0]` of `_validate_api_documentation`. -/
def firstApiClaim (claims : List Claim) : Option Claim :=
  (claims.filter (fun c => c.claim_type == ClaimType.api)).head?

/-- `ValidationEngine._validate_api_documentation`. -/
def validate_api_documentation (docs : DocumentationAnalysis) (code : CodeAnalysis) :
    List ValidationResult :=
  match docs.api_documentation with
  | none => []
  | some api_doc =>
    match truthyStr api_doc.api_type, code.structure_ with
    | some t, some st =>
      let framework_names := st.frameworks.map (fun f => lowerStr f.name)
      let api_consistent :=
        if lowerStr t == "graphql" then framework_names.any (fun fname => strContains fname "graphql")
        else true
      match firstApiClaim docs.claims with
      | some c =>
        if !api_consistent then
          [⟨some c, ValidationStatus.partly, Severity.medium,
            Evidence.apiTypeMismatch t, "Verify API type documentation"⟩]
        else []
      | none => []
    | _, _ => []

/-- `" ".join(...)` over document contents. -/
def joinSpace (l : List String) : String := String.intercalate " " l

/-- `ValidationEngine._find_undocumented_features`. -/
def find_undocumented_features (docs : DocumentationAnalysis) (code : CodeAnalysis) :
    List UndocFeature :=
  match code.structure_ with
  | none => []
  | some st =>
    let detected_frameworks := dedupKeepFirst (st.frameworks.map (fun f => f.name))
    let doc_content := joinSpace (docs.discovered_docs.map (fun d => lowerStr d.content))
    let fromFrameworks := (detected_frameworks.filter
      (fun fw => !(strContains doc_content (lowerStr fw)))).map UndocFeature.framework
    let fromLang :=
      match st.languages.head? with
      | some lang =>
        if !(strContains doc_content (lowerStr lang.name)) then [UndocFeature.primaryLanguage lang.name]
        else []
      | none => []
    (fromFrameworks ++ fromLang).take 10

/-- `ValidationEngine._calculate_drift_severity`. -/
def calculate_drift_severity (arch_drift setup_drift api_drift : List ValidationResult) : Severity :=
  let all_results := arch_drift ++ setup_drift ++ api_drift
  if all_results.isEmpty then Severity.low
  else
    let invalid_count := all_results.countP (fun r =>
      r.validation_status == ValidationStatus.invalid || r.validation_status == ValidationStatus.partly)
    let critical_count := all_results.countP (fun r =>
      r.severity == Severity.critical || r.severity == Severity.high)
    if 0 < critical_count then Severity.high
    else if 3 < invalid_count then Severity.medium
    else Severity.low

/-- `ValidationEngine.validate`. -/
def validate (docs : DocumentationAnalysis) (code : CodeAnalysis) : DriftReport :=
  let architecture_drift := validate_architecture_claims docs code
  let setup_drift := validate_setup_instructions docs code
  let api_drift := validate_api_documentation docs code
  let undocumented_features := find_undocumented_features docs code
  ⟨architecture_drift, setup_drift, api_drift, undocumented_features, [],
   calculate_drift_severity architecture_drift setup_drift api_drift⟩

/-- All `ValidationResult`s of a report, in report order. -/
def driftResults (rep : DriftReport) : List ValidationResult :=
  rep.architecture_drift ++ rep.setup_drift ++ rep.api_drift

/-! ### Markdown parsing (`analyzers/documentation.py` and
`review-codebase/.../analyzers/parsing_utils.py`) -/

/-- `re.match(r"^(#\x7b1,6\x7d)\s+(.+)$", line)`: up to six leading hashes, at
least one whitespace character, then a non-empty title running to the end of
the line.  When everything after the whitespace run is empty, the regex
backtracks one whitespace character into the title. -/
def headerMatchLn (l : List Char) : Option (Nat × List Char) :=
  let hashes := l.takeWhile (fun c => c = '#')
  let rest := l.dropWhile (fun c => c = '#')
  let n := hashes.length
  if 1 ≤ n ∧ n ≤ 6 then
    let ws := rest.takeWhile isPySpace
    let rem := rest.dropWhile isPySpace
    if ws.isEmpty then none
    else if !rem.isEmpty then some (n, rem)
    else if 2 ≤ ws.length then some (n, ws.drop (ws.length - 1))
    else none
  else none

/-- `any(keyword in title for keyword in keywords)` where `title` is the
lowered heading title. -/
def titleMatchesKw (title : List Char) (keywords : List String) : Bool :=
  keywords.any (fun keyword => containsSub (lowerList title) keyword.toList)

/-- A line that is a markdown heading whose lowered title contains one of the
keywords. -/
def isMatchHead (keywords : List String) (l : List Char) : Bool :=
  match headerMatchLn l with
  | some (_, title) => titleMatchesKw title keywords
  | none => false

/-- The heading level of a line, when it is a heading. -/
def headLevel (l : List Char) : Option Nat := (headerMatchLn l).map (fun pr => pr.1)

/-- The line loop of `DocumentationAnalyzer._extract_section` with its state
`(in_section, section_lines, current_level)`; a keyword-matching heading resets
the section, a non-matching heading of level at most `current_level` breaks out
of the loop while in a section. -/
def extractLoop (keywords : List String) :
    List (List Char) → Bool → List (List Char) → Nat → List (List Char)
  | [], _, acc, _ => acc
  | line :: rest, inSec, acc, curLevel =>
    match headerMatchLn line with
    | some (level, title) =>
      if titleMatchesKw title keywords then extractLoop keywords rest true [line] level
      else if inSec && decide (level ≤ curLevel) then acc
      else if inSec then extractLoop keywords rest inSec (acc ++ [line]) curLevel
      else extractLoop keywords rest inSec acc curLevel
    | none =>
      if inSec then extractLoop keywords rest inSec (acc ++ [line]) curLevel
      else extractLoop keywords rest inSec acc curLevel

/-- `DocumentationAnalyzer._extract_section` from
`codebase-reviewer/.../analyzers/documentation.py`. -/
def extract_section (content : String) (keywords : List String) : Option String :=
  let lines := splitNl content.toList
  let section_lines := extractLoop keywords lines false [] 0
  if section_lines.isEmpty then none else some (String.mk (joinNl section_lines))

/-- The line loop of the standalone `extract_section` from
`review-codebase/.../analyzers/parsing_utils.py` (same text as
`DocumentationAnalyzer._extract_section` except that it does not enumerate the
lines). -/
def puExtractLoop (keywords : List String) :
    List (List Char) → Bool → List (List Char) → Nat → List (List Char)
  | [], _, acc, _ => acc
  | line :: rest, inSec, acc, curLevel =>
    match headerMatchLn line with
    | some (level, title) =>
      if titleMatchesKw title keywords then puExtractLoop keywords rest true [line] level
      else if inSec && decide (level ≤ curLevel) then acc
      else if inSec then puExtractLoop keywords rest inSec (acc ++ [line]) curLevel
      else puExtractLoop keywords rest inSec acc curLevel
    | none =>
      if inSec then puExtractLoop keywords rest inSec (acc ++ [line]) curLevel
      else puExtractLoop keywords rest inSec acc curLevel

/-- `extract_section` from `review-codebase/.../analyzers/parsing_utils.py`. -/
def pu_extract_section (content : String) (keywords : List String) : Option String :=
  let lines := splitNl content.toList
  let section_lines := puExtractLoop keywords lines false [] 0
  if section_lines.isEmpty then none else some (String.mk (joinNl section_lines))

/-- The `patterns` table of `_detect_architecture_pattern` in
`documentation.py`. -/
def archPatternTable : List (String × List String) :=
  [("microservices", ["microservice", "micro-service", "service mesh"]),
   ("monolith", ["monolithic", "monolith"]),
   ("mvc", ["model-view-controller", "mvc"]),
   ("mvvm", ["model-view-viewmodel", "mvvm"]),
   ("layered", ["layered architecture", "n-tier", "three-tier"]),
   ("event-driven", ["event-driven", "event sourcing", "cqrs"]),
   ("serverless", ["serverless", "lambda", "faas"]),
   ("hexagonal", ["hexagonal", "ports and adapters"])]

/-- `DocumentationAnalyzer._detect_architecture_pattern`: first pattern (in
table order) one of whose keywords occurs in the lowered content. -/
def detect_architecture_pattern (content : String) : Option String :=
  let content_lower := lowerStr content
  (archPatternTable.find? (fun pr => pr.2.any (fun keyword => strContains content_lower keyword))).map
    (fun pr => pr.1)

/-- The `patterns` table of `detect_architecture_pattern` in
`parsing_utils.py` (same literal as `archPatternTable`). -/
def puArchPatternTable : List (String × List String) :=
  [("microservices", ["microservice", "micro-service", "service mesh"]),
   ("monolith", ["monolithic", "monolith"]),
   ("mvc", ["model-view-controller", "mvc"]),
   ("mvvm", ["model-view-viewmodel", "mvvm"]),
   ("layered", ["layered architecture", "n-tier", "three-tier"]),
   ("event-driven", ["event-driven", "event sourcing", "cqrs"]),
   ("serverless", ["serverless", "lambda", "faas"]),
   ("hexagonal", ["hexagonal", "ports and adapters"])]

/-- `detect_architecture_pattern` from `parsing_utils.py`. -/
def pu_detect_architecture_pattern (content : String) : Option String :=
  let content_lower := lowerStr content
  (puArchPatternTable.find? (fun pr => pr.2.any (fun keyword => strContains content_lower keyword))).map
    (fun pr => pr.1)

/-- One line of `_extract_list_items`:
`re.match(r"^[\s]*[-*+]\s+(.+)$", line)` followed by `.strip()` of group 1. -/
def listItemOf (line : List Char) : Option (List Char) :=
  let rest := line.dropWhile isPySpace
  match rest with
  | [] => none
  | b :: r =>
    if b = '-' ∨ b = '*' ∨ b = '+' then
      let ws := r.takeWhile isPySpace
      let rem := r.dropWhile isPySpace
      if ws.isEmpty then none
      else if !rem.isEmpty then some (stripWs rem)
      else if 2 ≤ ws.length then some (stripWs (ws.drop (ws.length - 1)))
      else none
    else none

/-- `DocumentationAnalyzer._extract_list_items`. -/
def extract_list_items (content : String) : List String :=
  ((splitNl content.toList).filterMap listItemOf).map String.mk

/-- The backtick character, by code point. -/
def isTick (c : Char) : Bool := c.toNat = 96

/-- The lazy close of the fenced-code-block regex: the earliest following
triple backtick; returns the body before it and the remainder after it. -/
def findClose : List Char → Option (List Char × List Char)
  | [] => none
  | c :: cs =>
    match cs with
    | c2 :: c3 :: rest =>
      if isTick c && isTick c2 && isTick c3 then some ([], rest)
      else (findClose cs).map (fun pr => (c :: pr.1, pr.2))
    | _ => (findClose cs).map (fun pr => (c :: pr.1, pr.2))

/-- A fenced-code-block match attempt at the current position:
triple backtick, an optional run of word characters (the language tag), a
newline, then the lazy body up to the next triple backtick. -/
def codeBlockAt (l : List Char) : Option (List Char × List Char) :=
  match l with
  | c1 :: c2 :: c3 :: rest =>
    if isTick c1 && isTick c2 && isTick c3 then
      match rest.dropWhile isWordChar with
      | c :: body0 => if c = '\n' then findClose body0 else none
      | _ => none
    else none
  | _ => none

/-- `re.findall` scan for the fenced-code-block pattern: try a match at each
position, continue after the end of a match; the fuel is the input length, an
upper bound on the number of scan steps since every step consumes at least one
character. -/
def scanBlocksAux : Nat → List Char → List (List Char)
  | 0, _ => []
  | _, [] => []
  | fuel + 1, l@(_ :: cs) =>
    match codeBlockAt l with
    | some (body, rest) => body :: scanBlocksAux fuel rest
    | none => scanBlocksAux fuel cs

/-- `DocumentationAnalyzer._extract_code_blocks`. -/
def extract_code_blocks (content : String) : List String :=
  (scanBlocksAux content.toList.length content.toList).map (fun b => String.mk (stripWs b))

/-! ### API extraction and claim production (`documentation.py`) -/

/-- The API-type branch of the `_extract_api_spec` document loop (lines
313-324): per-document precedence GraphQL, then gRPC, then REST (the latter
triggered by any of "rest", "api", "endpoint"), by case-insensitive substring
presence. -/
def apiTypeOf (content : String) : Option String :=
  let content_lower := lowerStr content
  if strContains content_lower "graphql" then some "GraphQL"
  else if strContains content_lower "grpc" then some "gRPC"
  else if ["rest", "api", "endpoint"].any (fun keyword => strContains content_lower keyword) then
    some "REST"
  else none

/-- The HTTP verbs of the endpoint regexes, in alternation order. -/
def httpVerbs : List String := ["GET", "POST", "PUT", "DELETE", "PATCH"]

/-- A character admitted by the path class of the endpoint regexes: slash,
word character, dash, left or right curly brace (code points 123 and 125), or
colon. -/
def isPathChar (c : Char) : Bool :=
  c = '/' || isWordChar c || c = '-' || c.toNat = 123 || c.toNat = 125 || c = ':'

/-- A match attempt of the bare endpoint pattern (verb, whitespace run, path
run) at the current position; returns the captured pair and the remainder. -/
def endpointAt (l : List Char) : Option ((String × String) × List Char) :=
  (httpVerbs.filterMap (fun v =>
    if v.toList.isPrefixOf l then
      let after := l.drop v.toList.length
      let ws := after.takeWhile isPySpace
      let rem := after.dropWhile isPySpace
      let path := rem.takeWhile isPathChar
      if !ws.isEmpty && !path.isEmpty then some ((v, String.mk path), rem.drop path.length)
      else none
    else none)).head?

/-- A match attempt of the backtick-quoted endpoint pattern at the current
position. -/
def endpointTickAt (l : List Char) : Option ((String × String) × List Char) :=
  match l with
  | c0 :: rest0 =>
    if isTick c0 then
      (httpVerbs.filterMap (fun v =>
        if v.toList.isPrefixOf rest0 then
          let after := rest0.drop v.toList.length
          let ws := after.takeWhile isPySpace
          let rem := after.dropWhile isPySpace
          let path := rem.takeWhile isPathChar
          if !ws.isEmpty && !path.isEmpty then
            match rem.drop path.length with
            | c1 :: rest1 => if isTick c1 then some ((v, String.mk path), rest1) else none
            | [] => none
          else none
        else none)).head?
    else none
  | [] => none

/-- `re.finditer` scan: try a match at each position, continue after the end
of a match; fuelled by the input length as in `scanBlocksAux`. -/
def scanMatchesAux (matchAt : List Char → Option ((String × String) × List Char)) :
    Nat → List Char → List (String × String)
  | 0, _ => []
  | _, [] => []
  | fuel + 1, l@(_ :: cs) =>
    match matchAt l with
    | some (ep, rest) => ep :: scanMatchesAux matchAt fuel rest
    | none => scanMatchesAux matchAt fuel cs

/-- The endpoint extraction of `_extract_api_spec`: both endpoint patterns run
over the whole document, bare pattern first. -/
def extractEndpoints (content : String) : List (String × String) :=
  let cs := content.toList
  scanMatchesAux endpointAt cs.length cs ++ scanMatchesAux endpointTickAt cs.length cs

/-- The document loop of `_extract_api_spec`, threading the accumulated
endpoints, the current API type, and `documented_in`. -/
def apiLoop : List DocumentFile → List (String × String) → Option String → List String →
    List (String × String) × Option String × List String
  | [], endpoints, api_type, documented_in => (endpoints, api_type, documented_in)
  | doc :: ds, endpoints, api_type, documented_in =>
    let api_type2 := match apiTypeOf doc.content with
      | some t => some t
      | none => api_type
    let endpoints2 := endpoints ++ extractEndpoints doc.content
    let documented_in2 :=
      if !endpoints2.isEmpty || api_type2.isSome then documented_in ++ [doc.path]
      else documented_in
    apiLoop ds endpoints2 api_type2 documented_in2

/-- The `(endpoints, api_type, documented_in)` triple computed by
`_extract_api_spec` over its candidate documents. -/
def extract_api_spec_parts (docsList : List DocumentFile) :
    List (String × String) × Option String × List String :=
  apiLoop docsList [] none []

/-- The final `api_type` of `_extract_api_spec` (the `APISpec.api_type` field
whenever an `APISpec` is returned at all). -/
def extract_api_type (docsList : List DocumentFile) : Option String :=
  (extract_api_spec_parts docsList).2.1

/-- The architecture claim appended by `_extract_architecture_claims`. -/
def archClaimFor (path p : String) : Claim :=
  ⟨path, ClaimType.architecture, "Architecture pattern: " ++ p, true, none, none, Severity.high⟩

/-- The claims appended during the document loop of
`_extract_architecture_claims`: the first document in which a pattern is
detected contributes one claim; later documents cannot override it. -/
def archClaimsLoop : List DocumentFile → Option String → List Claim
  | [], _ => []
  | d :: ds, found =>
    match found with
    | some p => archClaimsLoop ds (some p)
    | none =>
      match detect_architecture_pattern d.content with
      | some p => archClaimFor d.path p :: archClaimsLoop ds (some p)
      | none => archClaimsLoop ds none

/-- The setup claim appended by `_extract_setup_guide`. -/
def setupClaimFor (path : String) (n : Nat) : Claim :=
  ⟨path, ClaimType.setup, "Build steps documented (" ++ toString n ++ " steps)", true, none, none,
   Severity.medium⟩

/-- Section keywords of the build-step extraction in `_extract_setup_guide`. -/
def buildKeywords : List String := ["build", "installation", "install", "setup"]

/-- The claims appended during the document loop of `_extract_setup_guide`:
build steps accumulate across documents, and each loop iteration appends a
claim whenever the accumulated list is non-empty at that point. -/
def setupClaimsLoop : List DocumentFile → List String → List Claim
  | [], _ => []
  | d :: ds, steps =>
    let steps2 :=
      match extract_section d.content buildKeywords with
      | some sec => steps ++ extract_list_items sec ++ extract_code_blocks sec
      | none => steps
    let here := if steps2.isEmpty then [] else [setupClaimFor d.path steps2.length]
    here ++ setupClaimsLoop ds steps2

/-- The claim appended at the end of `_extract_api_spec` when an API type was
detected. -/
def apiClaimsOf (docsList : List DocumentFile) : List Claim :=
  let parts := extract_api_spec_parts docsList
  match parts.2.1 with
  | none => []
  | some ty =>
    [⟨match parts.2.2.head? with
      | some p => p
      | none => "unknown",
      ClaimType.api, "API type: " ++ ty, true, none, none, Severity.medium⟩]

/-- The evolution of `DocumentationAnalyzer.self.claims` across one call of
`analyze`, given the discovered documents: `self.claims` starts from its prior
value (it is initialised to `[]` only in `__init__`, never reset in `analyze`)
and the three claim-producing extractors append to it in order. -/
def analyzeClaims (prior : List Claim) (docsList : List DocumentFile) : List Claim :=
  let readme_docs := docsList.filter (fun d => d.doc_type == "primary")
  let architecture_docs := docsList.filter (fun d => d.doc_type == "architecture")
  let setup_docs := docsList.filter (fun d => d.doc_type == "setup" || d.doc_type == "primary")
  let api_docs := docsList.filter (fun d => d.doc_type == "api")
  prior ++ archClaimsLoop (readme_docs ++ architecture_docs) none
        ++ setupClaimsLoop setup_docs []
        ++ apiClaimsOf (api_docs ++ readme_docs)

/-! ### Document discovery (`documentation.py`) -/

/-- Outcome of `open(file_path).read()` with utf-8 decoding. -/
inductive ReadOutcome
  | ok (content : String)
  | unicodeDecodeErr
  | permissionErr
deriving DecidableEq, Repr

/-- A file matched by one of the documentation patterns, with its read
outcome and `stat` data. -/
structure MatchedFile where
  path : String
  doc_type : String
  readOutcome : ReadOutcome
  mtime : Nat
  size_bytes : Nat
deriving DecidableEq, Repr

/-- The `priority_map` of `_get_priority` (default 5). -/
def priorityMap : List (String × Nat) :=
  [("primary", 1), ("architecture", 2), ("contributing", 2), ("setup", 2), ("api", 3),
   ("changelog", 4), ("security", 3), ("license", 5), ("code_of_conduct", 5)]

/-- `DocumentationAnalyzer._get_priority`. -/
def get_priority (doc_type : String) : Nat :=
  match priorityMap.lookup doc_type with
  | some p => p
  | none => 5

/-- `DocumentationAnalyzer._create_document_file`: the decode or permission
failure is caught and the content set to the empty string; the record is built
either way. -/
def create_document_file (m : MatchedFile) : DocumentFile :=
  let content := match m.readOutcome with
    | ReadOutcome.ok s => s
    | _ => ""
  ⟨m.path, m.doc_type, content, get_priority m.doc_type, m.mtime, m.size_bytes⟩

/-- The sort key order of `_prioritize_documents`: (priority, path)
ascending. -/
def docKeyLe (a b : DocumentFile) : Bool :=
  decide (a.priority < b.priority) || (a.priority == b.priority && decide (a.path ≤ b.path))

/-- Stable insertion (new element goes after existing elements with a key not
greater than its own), matching Python's stable `sorted`. -/
def insertSorted (d : DocumentFile) : List DocumentFile → List DocumentFile
  | [] => [d]
  | x :: xs => if docKeyLe x d then x :: insertSorted d xs else d :: x :: xs

/-- `DocumentationAnalyzer._prioritize_documents` as a stable insertion sort
by (priority, path); Python's `sorted` is stable, so any stable sort by the
same key computes the same list. -/
def prioritize_documents (docsList : List DocumentFile) : List DocumentFile :=
  docsList.foldl (fun acc d => insertSorted d acc) []

/-- `DocumentationAnalyzer._discover_documentation`, over the listing of
pattern matches: every matching file produces a record, then the records are
sorted. -/
def discover_documentation (ms : List MatchedFile) : List DocumentFile :=
  prioritize_documents (ms.map create_document_file)

/-- A read outcome that raises `UnicodeDecodeError` or `PermissionError`. -/
def isFailedRead : ReadOutcome → Bool
  | ReadOutcome.ok _ => false
  | _ => true

/-! ### Language detection (`analyzers/code.py`) -/

/-- The `LANGUAGE_EXTENSIONS` table. -/
def langExtTable : List (String × String) :=
  [(".py", "Python"), (".js", "JavaScript"), (".ts", "TypeScript"), (".jsx", "JavaScript"),
   (".tsx", "TypeScript"), (".java", "Java"), (".cs", "C#"), (".go", "Go"), (".rb", "Ruby"),
   (".php", "PHP"), (".rs", "Rust"), (".cpp", "C++"), (".c", "C"), (".h", "C/C++"),
   (".hpp", "C++"), (".sh", "Shell"), (".bash", "Shell"), (".sql", "SQL"), (".kt", "Kotlin"),
   (".swift", "Swift"), (".m", "Objective-C"), (".scala", "Scala")]

/-- The ignore list of `_detect_languages` (substring test against the walk
root). -/
def skipDirs : List String := [".git", "node_modules", "venv", "__pycache__", "build", "dist"]

/-- A file seen by the `os.walk` of `_detect_languages`: the directory that
contains it, its name, and its line count when it decodes (`none` models a
decode or permission failure, which contributes to the file count but not the
line count). -/
structure SrcFile where
  dir : String
  fname : String
  lineCount : Option Nat
deriving DecidableEq, Repr

/-- `Path(file).suffix.lower()`. -/
def fileExt (f : SrcFile) : String := lowerStr (String.mk (pySuffix f.fname.toList))

/-- The directory skip test `any(skip in root for skip in [...])`. -/
def inIgnoredDir (f : SrcFile) : Bool := skipDirs.any (fun s => strContains f.dir s)

/-- A file that `_detect_languages` counts: outside the ignored directories
and with a recognized extension. -/
def isRecognized (f : SrcFile) : Bool :=
  !inIgnoredDir f && (langExtTable.lookup (fileExt f)).isSome

/-- One entry of the paired `extension_counts` / `extension_lines`
accumulators, keyed by extension in first-seen order. -/
structure ExtEntry where
  ext : String
  fileCount : Nat
  lineTotal : Nat
deriving DecidableEq, Repr

/-- Update the accumulator for one counted file: bump its extension's file
count and add its decoded line count (0 on decode failure). -/
def bumpExt : List ExtEntry → String → Nat → List ExtEntry
  | [], ext, lines => [⟨ext, 1, lines⟩]
  | e :: es, ext, lines =>
    if e.ext == ext then ⟨e.ext, e.fileCount + 1, e.lineTotal + lines⟩ :: es
    else e :: bumpExt es ext lines

/-- The walk loop of `_detect_languages`. -/
def tallyExts (files : List SrcFile) : List ExtEntry :=
  files.foldl (fun acc f =>
    if inIgnoredDir f then acc
    else if (langExtTable.lookup (fileExt f)).isSome then
      bumpExt acc (fileExt f) (match f.lineCount with | some n => n | none => 0)
    else acc) []

/-- Stable insertion for `Counter.most_common()`: descending file count, ties
kept in first-seen order. -/
def insertByCount (e : ExtEntry) : List ExtEntry → List ExtEntry
  | [] => [e]
  | x :: xs => if e.fileCount ≤ x.fileCount then x :: insertByCount e xs else e :: x :: xs

/-- `Counter.most_common()`: entries sorted by descending count, stable. -/
def mostCommonExts (entries : List ExtEntry) : List ExtEntry :=
  entries.foldl (fun acc e => insertByCount e acc) []

/-- `CodeAnalyzer._detect_languages`; the float percentage
`(count / total_files) * 100` is modelled exactly in `Rat`. -/
def detect_languages (files : List SrcFile) : List Language :=
  let entries := tallyExts files
  let total_files := (entries.map (fun e => e.fileCount)).sum
  if total_files = 0 then []
  else
    (mostCommonExts entries).map (fun e =>
      ⟨(match langExtTable.lookup e.ext with
        | some n => n
        | none => ""),
       ((e.fileCount : Rat) / (total_files : Rat)) * 100, e.fileCount, e.lineTotal⟩)

/-! ### Declarative section specification (for the C3 claim) -/

/-- The claim's description of section extraction: the returned lines are a
contiguous segment of the input opened by a keyword-matching heading of some
level `L`; every further heading inside the segment is strictly deeper than
`L` (so subsections stay inside); and the segment is closed by the end of the
document or by the next heading of level at most `L`. -/
def SecSpec (keywords : List String) (lines : List (List Char)) (res : List (List Char)) : Prop :=
  ∃ pre hd tl post L,
    lines = pre ++ (hd :: tl) ++ post ∧
    res = hd :: tl ∧
    isMatchHead keywords hd = true ∧
    headLevel hd = some L ∧
    (∀ l ∈ tl, ∀ lv, headLevel l = some lv → L < lv) ∧
    (post = [] ∨ ∃ p ps lv, post = p :: ps ∧ headLevel p = some lv ∧ lv ≤ L)

/-! ### Concrete instances used by counterexamples and witnesses -/

/-- An api-category document whose content mentions GraphQL. -/
def docGql : DocumentFile := ⟨"API.md", "api", "We use graphql here.", 3, 0, 0⟩

/-- A later candidate document that matches only the REST keywords. -/
def docRest : DocumentFile := ⟨"README.md", "primary", "This is a rest service.", 1, 0, 0⟩

/-- A matched documentation file whose read raises `PermissionError`. -/
def mFail : MatchedFile := ⟨"README.md", "primary", ReadOutcome.permissionErr, 0, 5⟩

/-- A setup guide claiming three prerequisites longer than 3 characters. -/
def setupC5 : SetupGuide := ⟨["aaaa", "bbbb", "cccc"], [], [], [], []⟩

/-- A documentation analysis with the three-prerequisite setup guide and no
claims at all. -/
def docsC5 : DocumentationAnalysis := ⟨[], none, some setupC5, none, none, [], [], 0⟩

/-- A code analysis with one dependency matching none of the prerequisites. -/
def codeC5 : CodeAnalysis := ⟨none, [⟨"zzzz", "production", none, ""⟩], []⟩

/-- A SETUP claim, as `_extract_setup_guide` would produce. -/
def claimSetupW : Claim :=
  ⟨"README.md", ClaimType.setup, "Build steps documented (2 steps)", true, none, none,
   Severity.medium⟩

/-- `docsC5` with one SETUP claim present. -/
def docsC5w : DocumentationAnalysis := ⟨[], none, some setupC5, none, none, [], [claimSetupW], 0⟩

/-- The architecture claim produced for a detected "mvc" pattern. -/
def claimMvc : Claim :=
  ⟨"README.md", ClaimType.architecture, "Architecture pattern: mvc", true, none, none,
   Severity.high⟩

/-- Architecture claims with pattern "mvc" and no components. -/
def archMvc : ArchitectureClaims := ⟨some "mvc", [], [], none, []⟩

/-- A code structure with no languages, frameworks, or entry points. -/
def stEmpty : CodeStructure := ⟨[], [], [], none⟩

/-- A documentation analysis claiming the "mvc" pattern. -/
def docsMvc : DocumentationAnalysis := ⟨[], some archMvc, none, none, none, [], [claimMvc], 0⟩

/-- A code analysis with the empty structure (in particular, no framework
whose name contains django, rails, or spring). -/
def codeMvc : CodeAnalysis := ⟨some stEmpty, [], []⟩

/-- The architecture validation result produced for `docsMvc` and `codeMvc`. -/
def rMvc : ValidationResult :=
  ⟨some claimMvc, ValidationStatus.partly, Severity.medium, Evidence.detectedFrameworks [],
   "Verify claimed architecture matches implementation"⟩

/-- A README whose content mentions the mvc pattern and nothing else the
extractors react to. -/
def readmeMvc : DocumentFile := ⟨"README.md", "primary", "# Overview\nUses the mvc pattern.", 1, 0, 0⟩

/-- A markdown document with a nested Setup section. -/
def contentW : String := "# Tools\n## Setup\nrun make\n# End"

/-- Two source files, one decodable Python file and one undecodable
JavaScript file. -/
def files2 : List SrcFile := [⟨"src", "a.py", some 10⟩, ⟨"src", "b.js", none⟩]

/-! ### Theorems -/

/-- C1: For every pair of lists of architecture, setup, and API
ValidationResults, the aggregate drift severity is HIGH if any result has
severity CRITICAL or HIGH; otherwise MEDIUM if strictly more than 3 results
have status INVALID or PARTIAL; otherwise LOW — and it is never CRITICAL. -/
theorem c1_aggregate_severity (arch_drift setup_drift api_drift : List ValidationResult) :
    calculate_drift_severity arch_drift setup_drift api_drift =
      (if (arch_drift ++ setup_drift ++ api_drift).any
            (fun r => r.severity == Severity.critical || r.severity == Severity.high) then
        Severity.high
      else if 3 < (arch_drift ++ setup_drift ++ api_drift).countP
            (fun r => r.validation_status == ValidationStatus.invalid ||
              r.validation_status == ValidationStatus.partly) then
        Severity.medium
      else Severity.low) ∧
    calculate_drift_severity arch_drift setup_drift api_drift ≠ Severity.critical := by
  have main : calculate_drift_severity arch_drift setup_drift api_drift =
      (if (arch_drift ++ setup_drift ++ api_drift).any
            (fun r => r.severity == Severity.critical || r.severity == Severity.high) then
        Severity.high
      else if 3 < (arch_drift ++ setup_drift ++ api_drift).countP
            (fun r => r.validation_status == ValidationStatus.invalid ||
              r.validation_status == ValidationStatus.partly) then
        Severity.medium
      else Severity.low) := by
    simp only [calculate_drift_severity]
    by_cases he : (arch_drift ++ setup_drift ++ api_drift) = []
    · obtain ⟨has, hp⟩ := List.append_eq_nil.mp he
      obtain ⟨ha, hs⟩ := List.append_eq_nil.mp has
      subst ha; subst hs; subst hp
      rfl
    · have hneP : ¬ ((arch_drift ++ setup_drift ++ api_drift).isEmpty = true) := by
        simpa [List.isEmpty_iff] using he
      rw [if_neg hneP]
      by_cases hc : (arch_drift ++ setup_drift ++ api_drift).any
          (fun r => r.severity == Severity.critical || r.severity == Severity.high) = true
      · have hpos : 0 < (arch_drift ++ setup_drift ++ api_drift).countP
            (fun r => r.severity == Severity.critical || r.severity == Severity.high) := by
          rw [List.countP_pos_iff]
          exact List.any_eq_true.mp hc
        rw [if_pos hpos, if_pos hc]
      · have hf : (arch_drift ++ setup_drift ++ api_drift).any
            (fun r => r.severity == Severity.critical || r.severity == Severity.high) = false :=
          Bool.eq_false_iff.mpr hc
        rw [List.any_eq_false] at hf
        have hzero : (arch_drift ++ setup_drift ++ api_drift).countP
            (fun r => r.severity == Severity.critical || r.severity == Severity.high) = 0 :=
          List.countP_eq_zero.mpr hf
        rw [hzero, if_neg (lt_irrefl 0), if_neg hc]
  refine ⟨main, ?_⟩
  rw [main]
  split
  · decide
  · split <;> decide

/-- The two section-extraction loops (from `documentation.py` and
`parsing_utils.py`) compute the same state transitions. -/
theorem puExtractLoop_eq_extractLoop (keywords : List String) :
    ∀ (ls : List (List Char)) (b : Bool) (acc : List (List Char)) (n : Nat),
      puExtractLoop keywords ls b acc n = extractLoop keywords ls b acc n := by
  intro ls
  induction ls with
  | nil => intro b acc n; rfl
  | cons l rest ih =>
    intro b acc n
    cases hm : headerMatchLn l with
    | none =>
      simp only [puExtractLoop, extractLoop, hm]
      split <;> apply ih
    | some pr =>
      obtain ⟨level, title⟩ := pr
      simp only [puExtractLoop, extractLoop, hm]
      split
      · apply ih
      · split
        · rfl
        · split <;> apply ih

/-- C10: the section extractor and the architecture-pattern detector of
`codebase-reviewer/.../documentation.py` agree extensionally with the
standalone `extract_section` and `detect_architecture_pattern` of
`review-codebase/.../parsing_utils.py`. -/
theorem c10_parsing_equivalence :
    (∀ content keywords, extract_section content keywords = pu_extract_section content keywords) ∧
    (∀ content, detect_architecture_pattern content = pu_detect_architecture_pattern content) := by
  constructor
  · intro content keywords
    simp only [extract_section, pu_extract_section]
    rw [puExtractLoop_eq_extractLoop]
  · intro content
    rfl

/-- C4 counterexample: a candidate list whose first document contains
"graphql" but whose final detected API type is REST, because the later
document re-runs the per-document precedence and overwrites the result. -/
theorem c4_counterexample :
    strContains (lowerStr docGql.content) "graphql" = true ∧
    extract_api_type [docGql, docRest] = some "REST" ∧
    extract_api_type [docGql, docRest] ≠ some "GraphQL" := by
  refine ⟨rfl, rfl, ?_⟩
  decide

/-- The API-type component of the `_extract_api_spec` loop keeps the
per-document detection of the last document that detected anything. -/
theorem apiLoop_type (ds : List DocumentFile) :
    ∀ (eps : List (String × String)) (t : Option String) (d : List String),
      (apiLoop ds eps t d).2.1 =
        (ds.filterMap (fun doc => apiTypeOf doc.content)).foldl (fun _ x => some x) t := by
  induction ds with
  | nil => intro eps t d; rfl
  | cons doc ds ih =>
    intro eps t d
    simp only [apiLoop, List.filterMap_cons]
    cases h : apiTypeOf doc.content with
    | none => simp only [h]; exact ih _ _ _
    | some x => simp only [h, List.foldl_cons]; exact ih _ _ _

/-- Replacing folds keep the last element when one exists. -/
theorem foldl_replace_getLast? (l : List String) :
    ∀ t : Option String, l.foldl (fun _ x => some x) t = (l.getLast?).or t := by
  induction l with
  | nil => intro t; simp
  | cons x xs ih =>
    intro t
    rw [List.foldl_cons, ih (some x)]
    cases xs with
    | nil => simp
    | cons y ys =>
      rw [List.getLast?_cons_cons]
      cases h : (y :: ys).getLast? with
      | none => simp at h
      | some z => simp

/-- C4 amended: the per-document precedence GraphQL > gRPC > REST is applied
inside each document (`apiTypeOf`), and across the ordered candidate list the
final API type is the per-document detection of the *last* document that
detected any style (later documents override earlier ones). -/
theorem c4_api_type_last_match (docsList : List DocumentFile) :
    extract_api_type docsList =
      (docsList.filterMap (fun doc => apiTypeOf doc.content)).getLast? := by
  unfold extract_api_type extract_api_spec_parts
  rw [apiLoop_type, foldl_replace_getLast?]
  simp

/-- C6 counterexample: a matched file whose read raises `PermissionError`
still yields a DocumentRecord (with empty content) in the discovery output,
rather than being skipped. -/
theorem c6_counterexample :
    isFailedRead mFail.readOutcome = true ∧
    discover_documentation [mFail] = [⟨"README.md", "primary", "", 1, 0, 5⟩] ∧
    (discover_documentation [mFail]).length ≠ 0 := by
  refine ⟨rfl, rfl, ?_⟩
  decide

/-- Stable insertion produces a permutation of consing. -/
theorem insertSorted_perm (d : DocumentFile) (l : List DocumentFile) :
    (insertSorted d l).Perm (d :: l) := by
  induction l with
  | nil => exact List.Perm.refl _
  | cons x xs ih =>
    simp only [insertSorted]
    split
    · exact (ih.cons x).trans (List.Perm.swap d x xs)
    · exact List.Perm.refl _

/-- The stable sort of `_prioritize_documents` permutes its input. -/
theorem prioritize_documents_perm (l : List DocumentFile) :
    (prioritize_documents l).Perm l := by
  have key : ∀ (l acc : List DocumentFile),
      (l.foldl (fun a d => insertSorted d a) acc).Perm (acc ++ l) := by
    intro l
    induction l with
    | nil => intro acc; simp
    | cons d ds ih =>
      intro acc
      rw [List.foldl_cons]
      refine (ih (insertSorted d acc)).trans ?_
      refine (((insertSorted_perm d acc).append_right ds).trans ?_)
      exact List.perm_middle.symm
  simpa using key l []

/-- C6 amended: a decode or permission failure while reading a matched file is
caught and is not fatal; the file is not skipped — it still contributes
exactly one DocumentRecord, whose content is the empty string. -/
theorem c6_unreadable_kept (ms : List MatchedFile) (m : MatchedFile)
    (hm : m ∈ ms) (hf : isFailedRead m.readOutcome = true) :
    (create_document_file m).content = "" ∧
    create_document_file m ∈ discover_documentation ms ∧
    (discover_documentation ms).length = ms.length := by
  refine ⟨?_, ?_, ?_⟩
  · cases m with
    | mk path doc_type ro mtime size =>
      cases ro with
      | ok s => simp [isFailedRead] at hf
      | unicodeDecodeErr => rfl
      | permissionErr => rfl
  · have h1 : create_document_file m ∈ ms.map create_document_file :=
      List.mem_map_of_mem create_document_file hm
    exact ((prioritize_documents_perm (ms.map create_document_file)).mem_iff).mpr h1
  · rw [discover_documentation,
      (prioritize_documents_perm (ms.map create_document_file)).length_eq, List.length_map]

/-- C6 witness: the amended statement evaluated at the unreadable file. -/
theorem c6_witness :
    (create_document_file mFail).content = "" ∧
    create_document_file mFail ∈ discover_documentation [mFail] ∧
    (discover_documentation [mFail]).length = [mFail].length :=
  c6_unreadable_kept [mFail] mFail (List.mem_singleton.mpr rfl) rfl

/-- C5 counterexample: three prerequisites are missing (strictly more than 2),
yet no setup ValidationResult is emitted because the claims list contains no
SETUP claim. -/
theorem c5_counterexample :
    2 < (missingPrereqs setupC5 codeC5.dependencies).length ∧
    validate_setup_instructions docsC5 codeC5 = [] := by
  refine ⟨by decide, rfl⟩

/-- C5 amended: setup validation considers only prerequisite strings longer
than 3 characters (lowered and deduplicated); a prerequisite is missing when
no dependency name contains it case-insensitively; one PARTIAL, LOW result
listing at most 5 missing terms is emitted exactly when more than 2
prerequisites are missing, the dependency list is non-empty, and at least one
SETUP claim exists (the result is attached to the first such claim); in every
other case no setup result is emitted. -/
theorem c5_setup_validation (docs : DocumentationAnalysis) (code : CodeAnalysis)
    (setup : SetupGuide) (h1 : docs.setup_instructions = some setup) :
    (code.dependencies ≠ [] → 2 < (missingPrereqs setup code.dependencies).length →
      (∀ c, firstSetupClaim docs.claims = some c →
        validate_setup_instructions docs code =
          [⟨some c, ValidationStatus.partly, Severity.low,
            Evidence.prereqMismatch ((missingPrereqs setup code.dependencies).take 5),
            "Verify setup documentation matches actual requirements"⟩] ∧
        ((missingPrereqs setup code.dependencies).take 5).length ≤ 5 ∧
        (∀ x ∈ (missingPrereqs setup code.dependencies).take 5,
          x ∈ missingPrereqs setup code.dependencies)) ∧
      (firstSetupClaim docs.claims = none → validate_setup_instructions docs code = [])) ∧
    ((missingPrereqs setup code.dependencies).length ≤ 2 →
      validate_setup_instructions docs code = []) ∧
    (code.dependencies = [] → validate_setup_instructions docs code = []) := by
  have hemit : validate_setup_instructions docs code =
      (if code.dependencies.isEmpty then []
      else if !(missingPrereqs setup code.dependencies).isEmpty &&
          decide (2 < (missingPrereqs setup code.dependencies).length) then
        (match firstSetupClaim docs.claims with
        | some c =>
          [⟨some c, ValidationStatus.partly, Severity.low,
            Evidence.prereqMismatch ((missingPrereqs setup code.dependencies).take 5),
            "Verify setup documentation matches actual requirements"⟩]
        | none => [])
      else []) := by
    simp only [validate_setup_instructions, h1]
  refine ⟨?_, ?_, ?_⟩
  · intro hdep hcount
    have hdepE : code.dependencies.isEmpty = false := by
      simpa [List.isEmpty_iff] using hdep
    have hne : (missingPrereqs setup code.dependencies).isEmpty = false := by
      rw [List.isEmpty_eq_false]
      intro h0
      rw [h0] at hcount
      simp at hcount
    constructor
    · intro c hc
      refine ⟨?_, List.length_take_le 5 _, fun x hx => List.take_subset 5 _ hx⟩
      rw [hemit, hdepE, hne, hc]
      simp [hcount]
    · intro hc
      rw [hemit, hdepE, hne, hc]
      simp [hcount]
  · intro hle
    rw [hemit]
    have : decide (2 < (missingPrereqs setup code.dependencies).length) = false := by
      simpa using Nat.not_lt.mpr hle
    rw [this]
    simp
  · intro hdep
    rw [hemit]
    simp [hdep]

/-- C5 witness: with the same missing prerequisites but a SETUP claim present,
exactly the single PARTIAL, LOW result is emitted. -/
theorem c5_witness :
    validate_setup_instructions docsC5w codeC5 =
      [⟨some claimSetupW, ValidationStatus.partly, Severity.low,
        Evidence.prereqMismatch ((missingPrereqs setupC5 codeC5.dependencies).take 5),
        "Verify setup documentation matches actual requirements"⟩] ∧
    2 < (missingPrereqs setupC5 codeC5.dependencies).length :=
  ⟨(((c5_setup_validation docsC5w codeC5 setupC5 rfl).1 (by decide) (by decide)).1
      claimSetupW (by decide)).1,
   by decide⟩

/-- The consistency check holds exactly when the claimed pattern is outside
the table or some detected framework name contains one of the table's expected
substrings. -/
theorem check_pattern_consistency_iff (p : String) (fw : List Framework) :
    check_pattern_consistency p fw = true ↔
      (consistencyMap.lookup (lowerStr p) = none ∨
       ∃ f ∈ fw, ∃ e ∈ (consistencyMap.lookup (lowerStr p)).getD [],
         strContains (lowerStr f.name) e = true) := by
  unfold check_pattern_consistency
  cases h : consistencyMap.lookup (lowerStr p) with
  | none => simp [h]
  | some expected =>
    simp only [h, Option.getD_some, List.any_eq_true, List.mem_map]
    constructor
    · rintro ⟨fname, ⟨f, hf, rfl⟩, e, he, hc⟩
      exact Or.inr ⟨f, hf, e, he, hc⟩
    · rintro (hnone | ⟨f, hf, e, he, hc⟩)
      · cases hnone
      · exact ⟨lowerStr f.name, ⟨f, hf, rfl⟩, e, he, hc⟩

/-- C2: when an architecture pattern is claimed (truthy) and a corresponding
ARCHITECTURE claim exists, architecture validation emits exactly one
pattern-consistency ValidationResult (followed only by the separate component
results), with severity MEDIUM, status VALID exactly when the pattern has no
entry in the consistency table or some detected framework name contains one of
the expected substrings, and PARTIAL otherwise; in particular PARTIAL for
"mvc" with no django/rails/spring framework. -/
theorem c2_architecture_validation (docs : DocumentationAnalysis) (code : CodeAnalysis)
    (arch : ArchitectureClaims) (st : CodeStructure) (p : String) (c : Claim)
    (h1 : docs.claimed_architecture = some arch) (h2 : code.structure_ = some st)
    (h3 : truthyStr arch.pattern = some p)
    (h4 : findPatternClaim p docs.claims = some c) :
    ∃ r : ValidationResult,
      validate_architecture_claims docs code = r :: archComponentResults docs arch st ∧
      r.claim = some c ∧
      r.severity = Severity.medium ∧
      (r.validation_status = ValidationStatus.valid ∨
       r.validation_status = ValidationStatus.partly) ∧
      (r.validation_status = ValidationStatus.valid ↔
        (consistencyMap.lookup (lowerStr p) = none ∨
         ∃ f ∈ st.frameworks, ∃ e ∈ (consistencyMap.lookup (lowerStr p)).getD [],
           strContains (lowerStr f.name) e = true)) ∧
      (lowerStr p = "mvc" →
        (∀ f ∈ st.frameworks,
          strContains (lowerStr f.name) "django" = false ∧
          strContains (lowerStr f.name) "rails" = false ∧
          strContains (lowerStr f.name) "spring" = false) →
        r.validation_status = ValidationStatus.partly) := by
  have hv : validate_architecture_claims docs code =
      archPatternResults docs arch st ++ archComponentResults docs arch st := by
    unfold validate_architecture_claims
    rw [h1, h2]
  have hp : archPatternResults docs arch st =
      [⟨some c,
        if check_pattern_consistency p st.frameworks then ValidationStatus.valid
        else ValidationStatus.partly,
        Severity.medium,
        Evidence.detectedFrameworks (st.frameworks.map (fun f => f.name)),
        if check_pattern_consistency p st.frameworks then
          "Architecture pattern appears consistent"
        else "Verify claimed architecture matches implementation"⟩] := by
    unfold archPatternResults
    rw [h3]
    dsimp only
    rw [h4]
  refine ⟨_, by rw [hv, hp]; rfl, rfl, rfl, ?_, ?_, ?_⟩
  · by_cases hc : check_pattern_consistency p st.frameworks = true
    · left; simp [hc]
    · right; simp [hc]
  · by_cases hc : check_pattern_consistency p st.frameworks = true
    · simp only [hc, if_true]
      simpa using (check_pattern_consistency_iff p st.frameworks).mp hc
    · have hf : check_pattern_consistency p st.frameworks = false := Bool.eq_false_iff.mpr hc
      simp only [hf, Bool.false_eq_true, if_false]
      constructor
      · intro h; cases h
      · intro h
        exact absurd ((check_pattern_consistency_iff p st.frameworks).mpr h) hc
  · intro hmvc hnone
    have hf : check_pattern_consistency p st.frameworks = false := by
      refine Bool.eq_false_iff.mpr ?_
      intro htrue
      rcases (check_pattern_consistency_iff p st.frameworks).mp htrue with hnoneTab | ⟨f, hfmem, e, he, hce⟩
      · rw [hmvc] at hnoneTab
        simp [consistencyMap] at hnoneTab
      · rw [hmvc] at he
        obtain ⟨hd, hr, hs⟩ := hnone f hfmem
        have he' : e = "django" ∨ e = "rails" ∨ e = "spring" := by
          simpa [consistencyMap] using he
        rcases he' with rfl | rfl | rfl
        · rw [hd] at hce; cases hce
        · rw [hr] at hce; cases hce
        · rw [hs] at hce; cases hce
    simp [hf]

/-- C2 witness: the "mvc" pattern with no detected frameworks yields a single
PARTIAL, MEDIUM pattern result. -/
theorem c2_witness :
    ∃ r : ValidationResult,
      validate_architecture_claims docsMvc codeMvc = r :: archComponentResults docsMvc archMvc stEmpty ∧
      r.claim = some claimMvc ∧
      r.severity = Severity.medium ∧
      r.validation_status = ValidationStatus.partly := by
  obtain ⟨r, ha, hb, hcv, _hd, _he, hmvc⟩ :=
    c2_architecture_validation docsMvc codeMvc archMvc stEmpty "mvc" claimMvc rfl rfl
      (by decide) (by decide)
  exact ⟨r, ha, hb, hcv, hmvc (by decide) (by intro f hf; cases hf)⟩

/-- A list whose `head?` is `some a` contains `a`. -/
theorem mem_of_headOpt_eq_some {α : Type} {l : List α} {a : α} (h : l.head? = some a) : a ∈ l := by
  cases l with
  | nil => cases h
  | cons x xs =>
    rw [List.head?_cons, Option.some.injEq] at h
    rw [← h]
    exact List.mem_cons_self x xs

/-- The first SETUP claim comes from the claims list. -/
theorem firstSetupClaim_mem {claims : List Claim} {c : Claim}
    (h : firstSetupClaim claims = some c) : c ∈ claims := by
  unfold firstSetupClaim at h
  exact List.mem_of_mem_filter (mem_of_headOpt_eq_some h)

/-- The first API claim comes from the claims list. -/
theorem firstApiClaim_mem {claims : List Claim} {c : Claim}
    (h : firstApiClaim claims = some c) : c ∈ claims := by
  unfold firstApiClaim at h
  exact List.mem_of_mem_filter (mem_of_headOpt_eq_some h)

/-- C7: every ValidationResult of the drift report carries (when present) a
claim that is literally an element of the input claims list — the Validation
Engine attaches outcomes by pairing, and no claim is modified: its
description, kind, and every other field are exactly those of a claim created
by the extractors. -/
theorem c7_claims_immutable (docs : DocumentationAnalysis) (code : CodeAnalysis) :
    ∀ r ∈ driftResults (validate docs code), ∀ c, r.claim = some c → c ∈ docs.claims := by
  intro r hr c hc
  have hr' : r ∈ validate_architecture_claims docs code ∨
      r ∈ validate_setup_instructions docs code ∨
      r ∈ validate_api_documentation docs code := by
    simpa [driftResults, validate, List.mem_append, or_assoc] using hr
  rcases hr' with h | h | h
  · unfold validate_architecture_claims at h
    split at h
    next arch st _ _ =>
      rcases List.mem_append.mp h with hpat | hcomp
      · unfold archPatternResults at hpat
        split at hpat
        · cases hpat
        · split at hpat
          · cases hpat
          next pattern_claim heq =>
            dsimp only at hpat
            rw [List.mem_singleton] at hpat
            rw [hpat] at hc
            simp only [Option.some.injEq] at hc
            rw [← hc]
            unfold findPatternClaim at heq
            exact List.mem_of_find?_eq_some heq
      · unfold archComponentResults at hcomp
        split at hcomp
        · cases hcomp
        · dsimp only at hcomp
          split at hcomp
          · rw [List.mem_singleton] at hcomp
            rw [hcomp] at hc
            exact mem_of_headOpt_eq_some hc
          · cases hcomp
    next => cases h
  · unfold validate_setup_instructions at h
    split at h
    · cases h
    next setup _ =>
      split at h
      · cases h
      · dsimp only at h
        split at h
        · split at h
          next c0 heq =>
            rw [List.mem_singleton] at h
            rw [h] at hc
            simp only [Option.some.injEq] at hc
            rw [← hc]
            exact firstSetupClaim_mem heq
          next => cases h
        · cases h
  · unfold validate_api_documentation at h
    split at h
    · cases h
    next api_doc _ =>
      split at h
      next t st _ _ =>
        dsimp only at h
        split at h
        next c0 heq =>
          split at h <;> split at h <;>
            first
            | exact absurd h (List.not_mem_nil r)
            | (rw [List.mem_singleton] at h
               rw [h] at hc
               simp only [Option.some.injEq] at hc
               rw [← hc]
               exact firstApiClaim_mem heq)
        next => cases h
      next => cases h

/-- C7 witness: the architecture result of the mvc instance carries a claim
that is in the input claims list. -/
theorem c7_witness : claimMvc ∈ docsMvc.claims :=
  c7_claims_immutable docsMvc codeMvc rMvc (by decide) claimMvc (by decide)

/-- Bumping an extension adds exactly one to the total file count. -/
theorem bumpExt_sum (es : List ExtEntry) (ext : String) (lines : Nat) :
    ((bumpExt es ext lines).map (fun e => e.fileCount)).sum =
      ((es.map (fun e => e.fileCount)).sum) + 1 := by
  induction es with
  | nil => simp [bumpExt]
  | cons e es ih =>
    simp only [bumpExt]
    split
    · simp only [List.map_cons, List.sum_cons]
      omega
    · simp only [List.map_cons, List.sum_cons, ih]
      omega

/-- The total file count tallied by the walk loop equals the number of
counted files. -/
theorem tallyExts_sum (files : List SrcFile) :
    ((tallyExts files).map (fun e => e.fileCount)).sum = (files.filter isRecognized).length := by
  have key : ∀ (fs : List SrcFile) (acc : List ExtEntry),
      ((fs.foldl (fun a f =>
        if inIgnoredDir f then a
        else if (langExtTable.lookup (fileExt f)).isSome then
          bumpExt a (fileExt f) (match f.lineCount with | some n => n | none => 0)
        else a) acc).map (fun e => e.fileCount)).sum =
      ((acc.map (fun e => e.fileCount)).sum) + (fs.filter isRecognized).length := by
    intro fs
    induction fs with
    | nil => intro acc; simp
    | cons f fs ih =>
      intro acc
      rw [List.foldl_cons]
      by_cases hig : inIgnoredDir f
      · have hrec : isRecognized f = false := by simp [isRecognized, hig]
        rw [if_pos hig, ih acc, List.filter_cons, hrec]
        simp
      · rw [if_neg hig]
        by_cases hlk : (langExtTable.lookup (fileExt f)).isSome
        · have hrec : isRecognized f = true := by simp [isRecognized, hig, hlk]
          rw [if_pos hlk, ih _, bumpExt_sum, List.filter_cons, hrec]
          simp
          omega
        · have hrec : isRecognized f = false := by simp [isRecognized, hig, hlk]
          rw [if_neg hlk, ih acc, List.filter_cons, hrec]
          simp
  simpa [tallyExts] using key files []

/-- `insertByCount` permutes consing. -/
theorem insertByCount_perm (e : ExtEntry) (l : List ExtEntry) :
    (insertByCount e l).Perm (e :: l) := by
  induction l with
  | nil => exact List.Perm.refl _
  | cons x xs ih =>
    simp only [insertByCount]
    split
    · exact (ih.cons x).trans (List.Perm.swap e x xs)
    · exact List.Perm.refl _

/-- `Counter.most_common()` permutes the tally. -/
theorem mostCommonExts_perm (entries : List ExtEntry) :
    (mostCommonExts entries).Perm entries := by
  have key : ∀ (l acc : List ExtEntry),
      (l.foldl (fun a e => insertByCount e a) acc).Perm (acc ++ l) := by
    intro l
    induction l with
    | nil => intro acc; simp
    | cons e es ih =>
      intro acc
      rw [List.foldl_cons]
      refine (ih (insertByCount e acc)).trans ?_
      refine ((insertByCount_perm e acc).append_right es).trans ?_
      exact List.perm_middle.symm
  simpa [mostCommonExts] using key entries []

/-- Summing `count / t * 100` over entries factors through the count sum. -/
theorem sum_percentage (t : Rat) (l : List ExtEntry) :
    (l.map (fun e => ((e.fileCount : Rat) / t) * 100)).sum =
      ((l.map (fun e => ((e.fileCount : Nat) : Rat))).sum / t) * 100 := by
  induction l with
  | nil => simp
  | cons e es ih =>
    simp only [List.map_cons, List.sum_cons, ih]
    ring

/-- C8: whenever at least one file outside the ignored directories has a
recognized source extension, the language percentages sum to exactly 100 (in
exact rational arithmetic) and the language list is non-empty; when no such
file exists the language list is empty. -/
theorem c8_language_percentages (files : List SrcFile) :
    ((∃ f ∈ files, isRecognized f = true) →
      ((detect_languages files).map (fun l => l.percentage)).sum = 100 ∧
      detect_languages files ≠ []) ∧
    ((∀ f ∈ files, isRecognized f = false) → detect_languages files = []) := by
  have hsum := tallyExts_sum files
  constructor
  · rintro ⟨f, hf, hrec⟩
    have hpos : 0 < (files.filter isRecognized).length := by
      have : f ∈ files.filter isRecognized := List.mem_filter.mpr ⟨hf, hrec⟩
      exact List.length_pos.mpr (List.ne_nil_of_mem this)
    have htot : ((tallyExts files).map (fun e => e.fileCount)).sum ≠ 0 := by omega
    have hentries : tallyExts files ≠ [] := by
      intro h0
      rw [h0] at htot
      simp at htot
    constructor
    · unfold detect_languages
      rw [if_neg htot]
      have hmaps : ((mostCommonExts (tallyExts files)).map (fun e =>
          (⟨(match langExtTable.lookup e.ext with
              | some n => n
              | none => ""),
            ((e.fileCount : Rat) / ((((tallyExts files).map (fun e => e.fileCount)).sum : Nat) : Rat)) * 100,
            e.fileCount, e.lineTotal⟩ : Language))).map (fun l => l.percentage) =
          (mostCommonExts (tallyExts files)).map (fun e =>
            ((e.fileCount : Rat) / ((((tallyExts files).map (fun e => e.fileCount)).sum : Nat) : Rat)) * 100) := by
        rw [List.map_map]
        rfl
      rw [hmaps, sum_percentage]
      have hperm : ((mostCommonExts (tallyExts files)).map
            (fun e => ((e.fileCount : Nat) : Rat))).sum =
          ((tallyExts files).map (fun e => ((e.fileCount : Nat) : Rat))).sum :=
        ((mostCommonExts_perm (tallyExts files)).map _).sum_eq
      rw [hperm]
      have hcast : ((tallyExts files).map (fun e => ((e.fileCount : Nat) : Rat))).sum =
          ((((tallyExts files).map (fun e => e.fileCount)).sum : Nat) : Rat) := by
        rw [Nat.cast_list_sum, List.map_map]
        rfl
      rw [hcast]
      have hne : ((((tallyExts files).map (fun e => e.fileCount)).sum : Nat) : Rat) ≠ 0 := by
        exact_mod_cast htot
      rw [div_self hne, one_mul]
    · unfold detect_languages
      rw [if_neg htot]
      intro hmap
      rw [List.map_eq_nil_iff] at hmap
      have hlen := (mostCommonExts_perm (tallyExts files)).length_eq
      rw [hmap] at hlen
      exact hentries (List.length_eq_zero.mp hlen.symm)
  · intro hall
    have hfilter : files.filter isRecognized = [] := by
      rw [List.filter_eq_nil_iff]
      intro f hf
      rw [hall f hf]
      simp
    rw [hfilter] at hsum
    unfold detect_languages
    rw [if_pos (by simpa using hsum)]

/-- C8 witness: two recognized files give percentages summing to 100. -/
theorem c8_witness :
    ((detect_languages files2).map (fun l => l.percentage)).sum = 100 ∧
    detect_languages files2 ≠ [] :=
  (c8_language_percentages files2).1 ⟨⟨"src", "a.py", some 10⟩, by decide, by decide⟩

/-- C9: the analyzer's claims list is carried in mutable instance state that
`analyze` never resets, so a second run over the unchanged repository appends
a second copy of every claim: the second DocumentationAnalysis' claims list is
the first one duplicated, not equal to it.  Evaluated at a repository whose
README yields exactly one architecture claim. -/
theorem c9_claims_accumulate :
    (analyzeClaims [] [readmeMvc]).length = 1 ∧
    analyzeClaims (analyzeClaims [] [readmeMvc]) [readmeMvc] =
      analyzeClaims [] [readmeMvc] ++ analyzeClaims [] [readmeMvc] ∧
    analyzeClaims (analyzeClaims [] [readmeMvc]) [readmeMvc] ≠ analyzeClaims [] [readmeMvc] := by
  refine ⟨rfl, rfl, ?_⟩
  decide

/-- A section specification is stable under prepending context lines. -/
theorem SecSpec.prepend (keywords : List String) (ctx lines res : List (List Char))
    (h : SecSpec keywords lines res) : SecSpec keywords (ctx ++ lines) res := by
  obtain ⟨pre, hd, tl, post, L, h1, h2, h3, h4, h5, h6⟩ := h
  exact ⟨ctx ++ pre, hd, tl, post, L, by rw [h1]; simp, h2, h3, h4, h5, h6⟩

/-- Invariant of the extraction loop while inside a section: the accumulated
lines start at a matching heading of level `L` and every later accumulated
heading is deeper; the loop's result is non-empty and satisfies the section
specification relative to the remaining input prefixed by the accumulator. -/
theorem extractLoop_inSec (keywords : List String) :
    ∀ (ls : List (List Char)) (hd : List Char) (tl : List (List Char)) (L : Nat),
      isMatchHead keywords hd = true → headLevel hd = some L →
      (∀ l ∈ tl, ∀ lv, headLevel l = some lv → L < lv) →
      extractLoop keywords ls true (hd :: tl) L ≠ [] ∧
      SecSpec keywords ((hd :: tl) ++ ls) (extractLoop keywords ls true (hd :: tl) L) := by
  intro ls
  induction ls with
  | nil =>
    intro hd tl L h1 h2 h3
    constructor
    · simp [extractLoop]
    · refine ⟨[], hd, tl, [], L, by simp, by simp [extractLoop], h1, h2, h3, Or.inl rfl⟩
  | cons l rest ih =>
    intro hd tl L h1 h2 h3
    cases hm : headerMatchLn l with
    | some pr =>
      obtain ⟨level, title⟩ := pr
      by_cases hkw : titleMatchesKw title keywords
      · have hstep : extractLoop keywords (l :: rest) true (hd :: tl) L =
            extractLoop keywords rest true [l] level := by
          simp [extractLoop, hm, hkw]
        have hmh : isMatchHead keywords l = true := by simp [isMatchHead, hm, hkw]
        have hlev : headLevel l = some level := by simp [headLevel, hm]
        obtain ⟨hne, hspec⟩ := ih l [] level hmh hlev (by simp)
        rw [hstep]
        refine ⟨hne, ?_⟩
        have hp := SecSpec.prepend keywords (hd :: tl) ([l] ++ rest) _ hspec
        simpa using hp
      · by_cases hle : level ≤ L
        · have hstep : extractLoop keywords (l :: rest) true (hd :: tl) L = hd :: tl := by
            simp [extractLoop, hm, hkw, hle]
          rw [hstep]
          refine ⟨by simp, ⟨[], hd, tl, l :: rest, L, by simp, rfl, h1, h2, h3, ?_⟩⟩
          exact Or.inr ⟨l, rest, level, rfl, by simp [headLevel, hm], hle⟩
        · have hstep : extractLoop keywords (l :: rest) true (hd :: tl) L =
              extractLoop keywords rest true (hd :: (tl ++ [l])) L := by
            simp [extractLoop, hm, hkw, hle]
          have h3' : ∀ x ∈ tl ++ [l], ∀ lv, headLevel x = some lv → L < lv := by
            intro x hx lv hlv
            rcases List.mem_append.mp hx with hx | hx
            · exact h3 x hx lv hlv
            · rw [List.mem_singleton] at hx
              subst hx
              simp [headLevel, hm] at hlv
              omega
          obtain ⟨hne, hspec⟩ := ih hd (tl ++ [l]) L h1 h2 h3'
          rw [hstep]
          refine ⟨hne, ?_⟩
          have heq : (hd :: (tl ++ [l])) ++ rest = (hd :: tl) ++ (l :: rest) := by simp
          rw [← heq]
          exact hspec
    | none =>
      have hstep : extractLoop keywords (l :: rest) true (hd :: tl) L =
          extractLoop keywords rest true (hd :: (tl ++ [l])) L := by
        simp [extractLoop, hm]
      have h3' : ∀ x ∈ tl ++ [l], ∀ lv, headLevel x = some lv → L < lv := by
        intro x hx lv hlv
        rcases List.mem_append.mp hx with hx | hx
        · exact h3 x hx lv hlv
        · rw [List.mem_singleton] at hx
          subst hx
          simp [headLevel, hm] at hlv
      obtain ⟨hne, hspec⟩ := ih hd (tl ++ [l]) L h1 h2 h3'
      rw [hstep]
      refine ⟨hne, ?_⟩
      have heq : (hd :: (tl ++ [l])) ++ rest = (hd :: tl) ++ (l :: rest) := by simp
      rw [← heq]
      exact hspec

/-- Behaviour of the extraction loop before any section has been opened: the
result is empty exactly when no line is a matching heading, and a non-empty
result satisfies the section specification. -/
theorem extractLoop_notIn (keywords : List String) :
    ∀ ls : List (List Char),
      (extractLoop keywords ls false [] 0 = [] ↔
        ∀ l ∈ ls, isMatchHead keywords l = false) ∧
      (extractLoop keywords ls false [] 0 ≠ [] →
        SecSpec keywords ls (extractLoop keywords ls false [] 0)) := by
  intro ls
  induction ls with
  | nil =>
    constructor
    · simp [extractLoop]
    · intro h
      simp [extractLoop] at h
  | cons l rest ih =>
    obtain ⟨ih1, ih2⟩ := ih
    cases hm : headerMatchLn l with
    | some pr =>
      obtain ⟨level, title⟩ := pr
      by_cases hkw : titleMatchesKw title keywords
      · have hstep : extractLoop keywords (l :: rest) false [] 0 =
            extractLoop keywords rest true [l] level := by
          simp [extractLoop, hm, hkw]
        have hmh : isMatchHead keywords l = true := by simp [isMatchHead, hm, hkw]
        have hlev : headLevel l = some level := by simp [headLevel, hm]
        obtain ⟨hne, hspec⟩ := extractLoop_inSec keywords rest l [] level hmh hlev (by simp)
        rw [hstep]
        constructor
        · constructor
          · intro h
            exact absurd h hne
          · intro hall
            have hl := hall l (List.mem_cons_self l rest)
            rw [hmh] at hl
            cases hl
        · intro _
          simpa using hspec
      · have hstep : extractLoop keywords (l :: rest) false [] 0 =
            extractLoop keywords rest false [] 0 := by
          simp [extractLoop, hm, hkw]
        have hmh : isMatchHead keywords l = false := by simp [isMatchHead, hm, hkw]
        rw [hstep]
        constructor
        · rw [ih1, List.forall_mem_cons]
          simp [hmh]
        · intro hne
          exact SecSpec.prepend keywords [l] rest _ (ih2 hne)
    | none =>
      have hstep : extractLoop keywords (l :: rest) false [] 0 =
          extractLoop keywords rest false [] 0 := by
        simp [extractLoop, hm]
      have hmh : isMatchHead keywords l = false := by simp [isMatchHead, hm]
      rw [hstep]
      constructor
      · rw [ih1, List.forall_mem_cons]
        simp [hmh]
      · intro hne
        exact SecSpec.prepend keywords [l] rest _ (ih2 hne)

/-- C3: for every markdown string and every non-empty keyword list, section
extraction returns none exactly when no heading matches a keyword; and a
returned section is verbatim a contiguous run of lines opened by a
keyword-matching heading, closed at the next heading of equal or shallower
level (or end of input), with every heading inside it strictly deeper than the
opening level, so subsections stay inside the returned section. -/
theorem c3_extract_section (content : String) (keywords : List String)
    (hk : keywords ≠ []) :
    (extract_section content keywords = none ↔
      ∀ l ∈ splitNl content.toList, isMatchHead keywords l = false) ∧
    (∀ s, extract_section content keywords = some s →
      ∃ res, SecSpec keywords (splitNl content.toList) res ∧
        s = String.mk (joinNl res)) := by
  obtain ⟨h1, h2⟩ := extractLoop_notIn keywords (splitNl content.toList)
  have hdef : extract_section content keywords =
      (if (extractLoop keywords (splitNl content.toList) false [] 0).isEmpty then none
       else some (String.mk (joinNl (extractLoop keywords (splitNl content.toList) false [] 0)))) := by
    simp only [extract_section]
  constructor
  · rw [hdef, ← h1]
    by_cases he : (extractLoop keywords (splitNl content.toList) false [] 0).isEmpty
    · rw [if_pos he]
      simp only [eq_self_iff_true, true_iff]
      exact List.isEmpty_iff.mp he
    · rw [if_neg he]
      constructor
      · intro h
        exact (Option.some_ne_none _ h).elim
      · intro h
        exact absurd (List.isEmpty_iff.mpr h) he
  · intro s hs
    rw [hdef] at hs
    by_cases he : (extractLoop keywords (splitNl content.toList) false [] 0).isEmpty
    · rw [if_pos he] at hs
      cases hs
    · rw [if_neg he] at hs
      have hne : extractLoop keywords (splitNl content.toList) false [] 0 ≠ [] := by
        intro h0
        exact he (List.isEmpty_iff.mpr h0)
      refine ⟨extractLoop keywords (splitNl content.toList) false [] 0, h2 hne, ?_⟩
      injection hs with hs
      exact hs.symm

/-- C3 witness: the specification holds of the section extracted for keyword
"setup" from a document with a nested Setup subsection. -/
theorem c3_witness :
    ∃ res, SecSpec ["setup"] (splitNl contentW.toList) res ∧
      "## Setup\nrun make" = String.mk (joinNl res) :=
  (c3_extract_section contentW ["setup"] (by decide)).2 "## Setup\nrun make" (by decide)

end CodebaseReviewer
